import Mathlib

/-!
Shallow embedding of the `autoconfig` configuration engine.

The engine (package `autoconfig`) reads configuration into an annotated Go
struct and validates it.  The parts embedded here are the ones the claims
are about:

* the `config` tag parser inside `getOrBuildFieldMeta` (tokens `struct`,
  `required`, `default=<value>`, lenient towards anything else);
* the per-type metadata cache `structFields` (`getOrBuildFieldMeta`);
* `Check` (required gate, default application via `setFieldDefault`,
  recursion into nested structs, shape checks on the argument);
* `ReadEnv` (shape checks, recursion into nested structs, binding of
  `mapstructure` keys, final unmarshal through the external source);
* `ConfigType.String` / `ConfigType.IsValid` from `configtype.go`.

Go's runtime is modelled as follows: `reflect` values become the inductive
family `GoValue`/`GoField`/`GoFields` (a struct carries its field names and
tags, as a `reflect.Value` does through its type); machine integers become
`Int`/`Nat` with the exact range checks of `strconv`; `float64` values are
modelled as exact rationals (no claim depends on rounding); errors become
the inductive `EngineError` whose constructors carry exactly the values the
corresponding `fmt.Errorf` call sites interpolate.  The external key-value
source (viper) is out of the engine's scope; its `Unmarshal` operation is a
parameter of the `ReadEnv` embedding.  Go's unbounded recursion is driven
by an explicit `fuel` argument, decremented only when recursing into a
nested struct; exhaustion is a distinguished error.
-/

/-! ### Models of the Go standard string helpers used by the engine -/

/-- ASCII lower-casing, enough for `strings.EqualFold` on the tag tokens
`struct` and `required` (which are ASCII). -/
def asciiLower (c : Char) : Char :=
  if 'A' ≤ c ∧ c ≤ 'Z' then Char.ofNat (c.toNat + 32) else c

/-- Model of `strings.EqualFold`, restricted to ASCII folding. -/
def eqFold (a b : String) : Bool :=
  a.data.map asciiLower == b.data.map asciiLower

/-- Characters treated as space by `strings.TrimSpace` (`unicode.IsSpace`),
restricted to the Latin-1 range. -/
def goIsSpace (c : Char) : Bool :=
  c == ' ' || c == '\t' || c == '\n' || c == '\r' ||
  c == Char.ofNat 11 || c == Char.ofNat 12 ||
  c == Char.ofNat 0x85 || c == Char.ofNat 0xA0

/-- Model of `strings.TrimSpace`. -/
def goTrim (s : String) : String :=
  String.mk (((s.data.dropWhile goIsSpace).reverse.dropWhile goIsSpace).reverse)

/-- Does the character list `p` start the character list `s`?  Model of
`strings.HasPrefix` on the underlying characters. -/
def strStarts : List Char → List Char → Bool
  | [], _ => true
  | _ :: _, [] => false
  | p :: ps, c :: cs => p == c && strStarts ps cs

/-- Split at the first occurrence of `sep`: `some (before, after)` when
`sep` occurs, `none` otherwise.  `strings.SplitN (·, sep, 2)` returns
`[before, after]` in the first case and the whole string in the second. -/
def splitOnceAux (sep : Char) : List Char → Option (List Char × List Char)
  | [] => none
  | c :: cs =>
    if c = sep then some ([], cs)
    else (splitOnceAux sep cs).map (fun p => (c :: p.1, p.2))

/-- Model of `strings.Split` (split on every occurrence of `sep`). -/
def splitCharAux (sep : Char) : List Char → List Char → List (List Char)
  | [], acc => [acc.reverse]
  | c :: cs, acc =>
    if c = sep then acc.reverse :: splitCharAux sep cs []
    else splitCharAux sep cs (c :: acc)

/-- `strings.Split s sep` for a one-character separator. -/
def goSplit (sep : Char) (s : String) : List String :=
  (splitCharAux sep s.data []).map String.mk

/-- Model of `strconv.ParseBool`: exactly the listed literals are accepted. -/
def goParseBool (s : String) : Option Bool :=
  if s = "1" ∨ s = "t" ∨ s = "T" ∨ s = "true" ∨ s = "TRUE" ∨ s = "True" then
    some true
  else if s = "0" ∨ s = "f" ∨ s = "F" ∨ s = "false" ∨ s = "FALSE" ∨ s = "False" then
    some false
  else none

/-- Value of a non-empty run of decimal digits; `none` when the list is
empty or contains a non-digit. -/
def digitsVal (cs : List Char) : Option Nat :=
  match cs with
  | [] => none
  | _ =>
    cs.foldl
      (fun acc c =>
        match acc with
        | none => none
        | some n => if c.isDigit then some (10 * n + (c.toNat - 48)) else none)
      (some 0)

/-- Model of `strconv.ParseInt (s, 10, 64)`: optional sign, decimal digits,
range `[-2^63, 2^63 - 1]`. -/
def goParseInt (s : String) : Option Int :=
  let p : Bool × List Char :=
    match s.data with
    | '+' :: rest => (false, rest)
    | '-' :: rest => (true, rest)
    | rest => (false, rest)
  match digitsVal p.2 with
  | none => none
  | some n =>
    if p.1 then
      if n ≤ 2 ^ 63 then some (-(n : Int)) else none
    else
      if n < 2 ^ 63 then some (n : Int) else none

/-- Model of `strconv.ParseUint (s, 10, 64)`: decimal digits, no sign,
range `[0, 2^64 - 1]`. -/
def goParseUint (s : String) : Option Nat :=
  match digitsVal s.data with
  | none => none
  | some n => if n < 2 ^ 64 then some n else none

/-- Exponent suffix of a decimal float literal: empty, or `e`/`E` with an
optional sign and digits. -/
def expPart : List Char → Option Int
  | [] => some 0
  | 'e' :: rest => expSigned rest
  | 'E' :: rest => expSigned rest
  | _ => none
where
  expSigned : List Char → Option Int
    | '+' :: rest => (digitsVal rest).map (fun n => (n : Int))
    | '-' :: rest => (digitsVal rest).map (fun n => -(n : Int))
    | rest => (digitsVal rest).map (fun n => (n : Int))

/-- Model of `strconv.ParseFloat (s, 64)` on decimal literals
(`[+-]digits[.digits][(e|E)[+-]digits]`, also `.5` and `5.`), returning the
exact rational value; the hexadecimal, `inf` and `nan` forms and the
rounding to the nearest binary64 are not modelled — no claim depends on
them. -/
def goParseFloat (s : String) : Option Rat :=
  let p : Bool × List Char :=
    match s.data with
    | '+' :: rest => (false, rest)
    | '-' :: rest => (true, rest)
    | rest => (false, rest)
  let ip := p.2.takeWhile Char.isDigit
  let rest1 := p.2.dropWhile Char.isDigit
  let fr : List Char × List Char :=
    match rest1 with
    | '.' :: rest2 => (rest2.takeWhile Char.isDigit, rest2.dropWhile Char.isDigit)
    | _ => ([], rest1)
  if ip = [] ∧ fr.1 = [] then none
  else
    match digitsVal (ip ++ fr.1 ++ ['0']), expPart fr.2 with
    | some m, some e =>
      let mant : Rat := ((m / 10 : Nat) : Rat) / ((10 : Rat) ^ fr.1.length)
      some ((if p.1 then -mant else mant) * (10 : Rat) ^ e)
    | _, _ => none

/-! ### The Go data model: runtime values and types -/

mutual

/-- One struct field as `reflect` presents it: name, visibility
(`PkgPath == ""`), the `config` and `mapstructure` tags (absent tag =
`none`), and the current value. -/
inductive GoField where
  | mk (name : String) (exported : Bool)
      (configTag : Option String) (mapTag : Option String)
      (value : GoValue)

/-- The field list of a struct value. -/
inductive GoFields where
  | nil
  | cons (f : GoField) (rest : GoFields)

/-- A Go runtime value, covering the kinds the engine distinguishes:
`bool`, the signed integer kinds (one width, `Int`), the unsigned kinds
(`Nat`), the float kinds (exact `Rat`), `string`, string slices (`none` =
nil slice, `some l` = non-nil slice with elements `l`), and structs. -/
inductive GoValue where
  | boolV (b : Bool)
  | intV (i : Int)
  | uintV (n : Nat)
  | floatV (q : Rat)
  | stringV (s : String)
  | sliceV (elems : Option (List String))
  | structV (fields : GoFields)

end

def GoField.name : GoField → String
  | .mk n _ _ _ _ => n

def GoField.exported : GoField → Bool
  | .mk _ e _ _ _ => e

def GoField.configTag : GoField → Option String
  | .mk _ _ ct _ _ => ct

def GoField.mapTag : GoField → Option String
  | .mk _ _ _ mt _ => mt

def GoField.value : GoField → GoValue
  | .mk _ _ _ _ v => v

/-- Replace the value of a field, keeping its identity and tags (what a
write through `reflect` does). -/
def GoField.withValue : GoField → GoValue → GoField
  | .mk n e ct mt _, v => .mk n e ct mt v

/-- `rv.Field(i)` / `rv.FieldByIndex([i])`. -/
def GoFields.get? : GoFields → Nat → Option GoField
  | .nil, _ => none
  | .cons f _, 0 => some f
  | .cons _ rest, n + 1 => GoFields.get? rest n

/-- Write field `i` (no-op out of range; the engine only writes indices it
read from the same struct). -/
def GoFields.set : GoFields → Nat → GoField → GoFields
  | .nil, _, _ => .nil
  | .cons _ rest, 0, g => .cons g rest
  | .cons f rest, n + 1, g => .cons f (GoFields.set rest n g)

/-- The identity of a `reflect.Type` as far as the engine can observe it:
the kind, and for structs the ordered field names, visibilities, tags and
field types.  A struct type is spelled as a `structCons`/`structNil`
chain so that equality is derivable. -/
inductive GoType where
  | boolT
  | intT
  | uintT
  | floatT
  | stringT
  | sliceT
  | structNil
  | structCons (name : String) (exported : Bool)
      (configTag : Option String) (mapTag : Option String)
      (fty : GoType) (rest : GoType)
deriving DecidableEq

mutual

/-- `rv.Type()`. -/
def typeOf : GoValue → GoType
  | .boolV _ => .boolT
  | .intV _ => .intT
  | .uintV _ => .uintT
  | .floatV _ => .floatT
  | .stringV _ => .stringT
  | .sliceV _ => .sliceT
  | .structV fs => typeOfFields fs

def typeOfFields : GoFields → GoType
  | .nil => .structNil
  | .cons (.mk n e ct mt v) rest => .structCons n e ct mt (typeOf v) (typeOfFields rest)

end

/-- `rv.Kind().String()` (integer and float widths collapsed to one kind
each, as in the rest of the model). -/
def kindOf : GoValue → String
  | .boolV _ => "bool"
  | .intV _ => "int"
  | .uintV _ => "uint"
  | .floatV _ => "float64"
  | .stringV _ => "string"
  | .sliceV _ => "slice"
  | .structV _ => "struct"

/-- Is the value of one of the kinds `setFieldDefault` supports? -/
def isScalarValue : GoValue → Bool
  | .boolV _ => true
  | .intV _ => true
  | .uintV _ => true
  | .floatV _ => true
  | .stringV _ => true
  | .sliceV _ => false
  | .structV _ => false

/-- Is the value a struct? -/
def isStructValue : GoValue → Bool
  | .structV _ => true
  | _ => false

mutual

/-- Model of `reflect.Value.IsZero` (the body of `isZeroValue`): `false`,
`0`, the empty string, a nil slice (an empty but non-nil slice is NOT
zero), a struct all of whose fields are zero. -/
def isZeroValue : GoValue → Bool
  | .boolV b => b == false
  | .intV i => i == 0
  | .uintV n => n == 0
  | .floatV q => decide (q = 0)
  | .stringV s => s == ""
  | .sliceV o => o.isNone
  | .structV fs => isZeroFields fs

def isZeroFields : GoFields → Bool
  | .nil => true
  | .cons (.mk _ _ _ _ v) rest => isZeroValue v && isZeroFields rest

end

/-! ### Field metadata and the tag parser (`getOrBuildFieldMeta`, build part) -/

/-- `fieldMeta`: pre-parsed tag info for one struct field. -/
structure FieldMeta where
  name : String
  index : Nat
  mapTag : String
  required : Bool
  defaultVal : Option String
  isStruct : Bool
deriving DecidableEq

/-- The `switch` on one already-trimmed token of a `config` tag:
`struct` and `required` case-insensitively, `default=<value>` by prefix
with the value taken verbatim after the first `=`; anything else is
silently ignored. -/
def applyToken (fm : FieldMeta) (p : String) : FieldMeta :=
  if eqFold p "struct" then
    { fm with isStruct := true }
  else if eqFold p "required" then
    { fm with required := true }
  else if strStarts "default=".data p.data then
    match splitOnceAux '=' p.data with
    | some kv => { fm with defaultVal := some (String.mk kv.2) }
    | none => fm
  else fm

/-- One iteration of the token loop: `part = strings.TrimSpace(part)`
followed by the token switch. -/
def applyTagPart (fm : FieldMeta) (part : String) : FieldMeta :=
  applyToken fm (goTrim part)

/-- The metadata built for one field carrying `config` tag `raw` at index
`idx`: split the tag on commas, fold the token switch over the parts, then
record the `mapstructure` tag when present and not `"-"`. -/
def parseFieldMeta (fname : String) (idx : Nat) (raw : String)
    (mapT : Option String) : FieldMeta :=
  let fm1 := (goSplit ',' raw).foldl applyTagPart
    { name := fname, index := idx, mapTag := "", required := false,
      defaultVal := none, isStruct := false }
  match mapT with
  | some mt => if mt = "-" then fm1 else { fm1 with mapTag := mt }
  | none => fm1

/-- The field loop of `getOrBuildFieldMeta`: skip unexported fields and
fields without a `config` tag or with tag `"-"`; parse the rest.  `idx` is
the reflect index of the first field of `fts`. -/
def buildFields : GoType → Nat → List FieldMeta
  | .structCons fname e ct mt _ rest, idx =>
    let tail := buildFields rest (idx + 1)
    if e then
      match ct with
      | some raw => if raw = "-" then tail else parseFieldMeta fname idx raw mt :: tail
      | none => tail
    else tail
  | _, _ => []

/-- Metadata built for a struct type (a non-struct type never reaches this
point: `Check` rejects non-struct arguments first). -/
def buildFieldMeta (rt : GoType) : List FieldMeta :=
  buildFields rt 0

/-! ### Errors

One constructor per `fmt.Errorf` call site of the embedded code, carrying
exactly the values that call site interpolates. -/

/-- Errors of `setFieldDefault`. -/
inductive SetDefaultError where
  | cannotSet (fname : String)
  | invalidBool (lit : String)
  | invalidInt (lit : String)
  | invalidUint (lit : String)
  | invalidFloat (lit : String)
  | unsupportedKind (kind : String) (fname : String)
deriving DecidableEq

/-- Errors of `Check` and `ReadEnv`.  `outOfFuel` is the model's marker for
recursion deeper than the available fuel; `fieldIndexPanic` models the
runtime panic of `FieldByIndex` on an index foreign to the struct (never
reached for metadata built from the struct's own type). -/
inductive EngineError where
  | checkNotPointer (kind : String)
  | checkNotStruct (kind : String)
  | nestedCheck (fname : String) (e : EngineError)
  | missingRequired (pfx : String) (mapTag : String) (fname : String)
  | defaultErr (fname : String) (e : SetDefaultError)
  | readEnvNotPointer (kind : String)
  | readEnvNotStruct (kind : String)
  | nestedReadEnv (fname : String) (e : EngineError)
  | unmarshalErr (msg : String)
  | fieldIndexPanic (fname : String)
  | outOfFuel
deriving DecidableEq

/-! ### The metadata cache -/

/-- `structFields : map[reflect.Type][]fieldMeta`. -/
abbrev Cache := List (GoType × List FieldMeta)

/-- Map lookup by type identity. -/
def lookupCache : Cache → GoType → Option (List FieldMeta)
  | [], _ => none
  | (t, m) :: rest, rt => if rt = t then some m else lookupCache rest rt

/-- The engine's mutable state: the metadata cache, the `msTag`
field-name-to-key registry, and the set of keys registered with the
external source (`viper.BindEnv`). -/
structure EngineState where
  cache : Cache
  msTag : List (String × String)
  bound : List String

/-- `getOrBuildFieldMeta`: return the cached metadata when present,
otherwise build it and cache it.  The double-checked locking of the
source collapses in this sequential model; the `error` component of the
Go return value is carried to show that no path produces an error. -/
def getOrBuildFieldMeta (cache : Cache) (rt : GoType) :
    Except EngineError (List FieldMeta) × Cache :=
  match lookupCache cache rt with
  | some metas => (.ok metas, cache)
  | none =>
    let metas := buildFieldMeta rt
    (.ok metas, (rt, metas) :: cache)

/-! ### `setFieldDefault` -/

/-- The kind switch of `setFieldDefault`: parse the default literal per the
field's kind (string verbatim), or fail naming the literal, or — for any
other kind — fail naming the kind and the field. -/
def parseDefaultValue (v : GoValue) (fname : String) (dv : String) :
    Except SetDefaultError GoValue :=
  match v with
  | .boolV _ =>
    match goParseBool dv with
    | some b => .ok (.boolV b)
    | none => .error (.invalidBool dv)
  | .intV _ =>
    match goParseInt dv with
    | some i => .ok (.intV i)
    | none => .error (.invalidInt dv)
  | .uintV _ =>
    match goParseUint dv with
    | some n => .ok (.uintV n)
    | none => .error (.invalidUint dv)
  | .floatV _ =>
    match goParseFloat dv with
    | some q => .ok (.floatV q)
    | none => .error (.invalidFloat dv)
  | .stringV _ => .ok (.stringV dv)
  | v => .error (.unsupportedKind (kindOf v) fname)

/-- `setFieldDefault`: write the parsed default into the field `fm`
describes.  Fields of a struct reached through a non-nil pointer are
always settable, so the `CanSet` guard of the source is modelled by the
out-of-range case. -/
def setFieldDefault (fields : GoFields) (fm : FieldMeta) (dv : String) :
    Except SetDefaultError GoFields :=
  match GoFields.get? fields fm.index with
  | none => .error (.cannotSet fm.name)
  | some fld =>
    match parseDefaultValue fld.value fm.name dv with
    | .ok w => .ok (GoFields.set fields fm.index (fld.withValue w))
    | .error e => .error e

/-- Steps 3b and 3c of the `Check` loop for one field: the required gate
first (fail when the current value is zero), then default application
(only when the value is zero and a default is present). -/
def requiredAndDefaultPart (st : EngineState) (pfxS : String)
    (fields : GoFields) (fm : FieldMeta) :
    EngineState × GoFields × Option EngineError :=
  match GoFields.get? fields fm.index with
  | none => (st, fields, some (.fieldIndexPanic fm.name))
  | some fld =>
    if fm.required && isZeroValue fld.value then
      (st, fields, some (.missingRequired pfxS fm.mapTag fm.name))
    else if isZeroValue fld.value && fm.defaultVal.isSome then
      match fm.defaultVal with
      | some dv =>
        match setFieldDefault fields fm dv with
        | .ok fields' => (st, fields', none)
        | .error e => (st, fields, some (.defaultErr fm.name e))
      | none => (st, fields, none)
    else (st, fields, none)

/-! ### `Check` -/

/-- Go map assignment `m[k] = v` on an association list: replace the first
binding of `k`, or append one. -/
def updateAssoc : List (String × String) → String → String → List (String × String)
  | [], k, v => [(k, v)]
  | (k', v') :: rest, k, v =>
    if k' = k then (k, v) :: rest else (k', v') :: updateAssoc rest k v

mutual

/-- The body of `Check` after the pointer shape checks: reject a non-struct
target, look up (or build) the metadata for the struct's type, then run the
field loop.  `fuel` bounds the nesting depth of `struct`-tagged fields. -/
def checkPtr (fuel : Nat) (st : EngineState) (pfxS : String) (v : GoValue) :
    EngineState × GoValue × Option EngineError :=
  match v with
  | .structV fields =>
    match getOrBuildFieldMeta st.cache (typeOf (.structV fields)) with
    | (.error e, cache') => ({ st with cache := cache' }, .structV fields, some e)
    | (.ok metas, cache') =>
      match checkMetas fuel { st with cache := cache' } pfxS fields metas with
      | (st', fields', err) => (st', .structV fields', err)
  | v => (st, v, some (.checkNotStruct (kindOf v)))
termination_by (fuel, 3, 0)
decreasing_by
  all_goals apply Prod.Lex.right
  all_goals exact Prod.Lex.left _ _ (by omega)

/-- The `for _, fm := range metas` loop of `Check`: run the per-field step,
returning its error as soon as one arises (partial mutations of earlier
fields are kept, as they are in the caller's memory). -/
def checkMetas (fuel : Nat) (st : EngineState) (pfxS : String)
    (fields : GoFields) : List FieldMeta → EngineState × GoFields × Option EngineError
  | [] => (st, fields, none)
  | fm :: rest =>
    match checkFieldStep fuel st pfxS fields fm with
    | (st', fields', some e) => (st', fields', some e)
    | (st', fields', none) => checkMetas fuel st' pfxS fields' rest
termination_by metas => (fuel, 2, metas.length)
decreasing_by
  all_goals apply Prod.Lex.right
  · exact Prod.Lex.left _ _ (by omega)
  · exact Prod.Lex.right _ (by simp)

/-- One iteration of the `Check` loop (steps 3a–3c for the field `fm`
describes): recurse first when the field is `struct`-tagged, then run the
required gate and default application on the field's current value. -/
def checkFieldStep (fuel : Nat) (st : EngineState) (pfxS : String)
    (fields : GoFields) (fm : FieldMeta) :
    EngineState × GoFields × Option EngineError :=
  match GoFields.get? fields fm.index with
  | none => (st, fields, some (.fieldIndexPanic fm.name))
  | some fld =>
    match (if fm.isStruct then nestedCheckPart fuel st pfxS fields fm fld
           else (st, fields, none)) with
    | (st1, fields1, some e) => (st1, fields1, some e)
    | (st1, fields1, none) => requiredAndDefaultPart st1 pfxS fields1 fm
termination_by (fuel, 1, 0)
decreasing_by
  apply Prod.Lex.right
  exact Prod.Lex.left _ _ (by omega)

/-- Step 3a: `Check` recursively invoked on the nested field's address
(always a non-nil pointer to the field, so the nested shape checks reduce
to `checkPtr`); the nested result is visible in the caller's struct, and a
nested error comes back wrapped with the field's name. -/
def nestedCheckPart (fuel : Nat) (st : EngineState) (pfxS : String)
    (fields : GoFields) (fm : FieldMeta) (fld : GoField) :
    EngineState × GoFields × Option EngineError :=
  match fuel with
  | 0 => (st, fields, some .outOfFuel)
  | n + 1 =>
    match checkPtr n st pfxS fld.value with
    | (st', v', some e) =>
      (st', GoFields.set fields fm.index (fld.withValue v'),
       some (.nestedCheck fm.name e))
    | (st', v', none) =>
      (st', GoFields.set fields fm.index (fld.withValue v'), none)
termination_by (fuel, 0, 0)
decreasing_by
  exact Prod.Lex.left _ _ (by omega)

end

/-- The argument of `Check`/`ReadEnv` as `reflect.ValueOf` sees it: a plain
(non-pointer) value, a nil pointer, or a non-nil pointer to a value. -/
inductive Arg where
  | value (v : GoValue)
  | nilPointer
  | pointer (v : GoValue)

/-- `Check`: the two pointer shape checks (`Kind() != Ptr || IsNil()`, then
`Elem().Kind() != Struct` inside `checkPtr`) followed by the metadata-driven
field loop.  Returns the final engine state, the argument (with the
mutations `Check` made through the pointer), and the error if any. -/
def check (fuel : Nat) (st : EngineState) (pfxS : String) (arg : Arg) :
    EngineState × Arg × Option EngineError :=
  match arg with
  | .value v => (st, .value v, some (.checkNotPointer (kindOf v)))
  | .nilPointer => (st, .nilPointer, some (.checkNotPointer "ptr"))
  | .pointer v =>
    match checkPtr fuel st pfxS v with
    | (st', v', err) => (st', .pointer v', err)

/-! ### `ReadEnv` -/

/-- The external key-value source's "populate the structure" operation
(`viper.Unmarshal`), abstract: it sees the engine state (which keys were
bound) and the structure, and either returns the populated structure or an
error message. -/
abbrev Unmarshal := EngineState → GoValue → Except String GoValue

/-- Step 2b of the `ReadEnv` loop: register the field's `mapstructure` key
with the external source (`viper.BindEnv`) and record the
field-name-to-key mapping, when the tag is present and not `"-"`. -/
def bindEnvPart (st : EngineState) (fld : GoField) : EngineState :=
  match fld.mapTag with
  | some mt =>
    if mt = "-" then st
    else { st with bound := st.bound ++ [mt],
                   msTag := updateAssoc st.msTag fld.name mt }
  | none => st

mutual

/-- The body of `ReadEnv` after the pointer shape checks: reject a
non-struct target, walk the fields (recursing into `struct`-tagged ones
and binding `mapstructure` keys), then unmarshal the whole structure once
through the external source. -/
def readEnvPtr (fuel : Nat) (st : EngineState) (um : Unmarshal) (v : GoValue) :
    EngineState × GoValue × Option EngineError :=
  match v with
  | .structV fields =>
    match readEnvFields fuel st um fields with
    | (st', fields', some e) => (st', .structV fields', some e)
    | (st', fields', none) =>
      match um st' (.structV fields') with
      | .ok v' => (st', v', none)
      | .error msg => (st', .structV fields', some (.unmarshalErr msg))
  | v => (st, v, some (.readEnvNotStruct (kindOf v)))
termination_by (fuel, 3, 0)
decreasing_by
  apply Prod.Lex.right
  exact Prod.Lex.left _ _ (by omega)

/-- The field loop of `ReadEnv`: skip unexported fields; recurse into a
field whose whole `config` tag case-insensitively equals `struct` (wrapping
a nested error with the field's name, step 2a, `readEnvNestedPart`); then
bind the field's `mapstructure` key when present and not `"-"` (step 2b,
`bindEnvPart`). -/
def readEnvFields (fuel : Nat) (st : EngineState) (um : Unmarshal) :
    GoFields → EngineState × GoFields × Option EngineError
  | .nil => (st, .nil, none)
  | .cons fld rest =>
    if fld.exported then
      match readEnvNestedPart fuel st um fld with
      | (st1, v1, some e) => (st1, .cons (fld.withValue v1) rest, some e)
      | (st1, v1, none) =>
        match readEnvFields fuel (bindEnvPart st1 fld) um rest with
        | (st3, rest', err) => (st3, .cons (fld.withValue v1) rest', err)
    else
      match readEnvFields fuel st um rest with
      | (st3, rest', err) => (st3, .cons fld rest', err)
termination_by fs => (fuel, 2, sizeOf fs)
decreasing_by
  all_goals simp_wf
  all_goals apply Prod.Lex.right
  all_goals first
    | exact Prod.Lex.left _ _ (by omega)
    | apply Prod.Lex.right
      omega

/-- Step 2a of the `ReadEnv` loop: when the field's whole `config` tag
case-insensitively equals `struct`, recursively invoke `ReadEnv` on the
nested field's address (`readEnvRecurse`), wrapping a nested error with
the field's name. -/
def readEnvNestedPart (fuel : Nat) (st : EngineState) (um : Unmarshal)
    (fld : GoField) : EngineState × GoValue × Option EngineError :=
  match fld.configTag with
  | some raw =>
    if eqFold raw "struct" then readEnvRecurse fuel st um fld
    else (st, fld.value, none)
  | none => (st, fld.value, none)
termination_by (fuel, 1, 0)
decreasing_by
  apply Prod.Lex.right
  exact Prod.Lex.left _ _ (by omega)

/-- The recursive `ReadEnv` invocation on a nested field's address (always
a non-nil pointer to the field, so the nested shape checks reduce to
`readEnvPtr`). -/
def readEnvRecurse (fuel : Nat) (st : EngineState) (um : Unmarshal)
    (fld : GoField) : EngineState × GoValue × Option EngineError :=
  match fuel with
  | 0 => (st, fld.value, some EngineError.outOfFuel)
  | n + 1 =>
    match readEnvPtr n st um fld.value with
    | (st', v', some e) => (st', v', some (.nestedReadEnv fld.name e))
    | (st', v', none) => (st', v', none)
termination_by (fuel, 0, 0)
decreasing_by
  exact Prod.Lex.left _ _ (by omega)

end


/-- `ReadEnv`: the two pointer shape checks followed by the field walk and
the final unmarshal. -/
def readEnv (fuel : Nat) (st : EngineState) (um : Unmarshal) (arg : Arg) :
    EngineState × Arg × Option EngineError :=
  match arg with
  | .value v => (st, .value v, some (.readEnvNotPointer (kindOf v)))
  | .nilPointer => (st, .nilPointer, some (.readEnvNotPointer "ptr"))
  | .pointer v =>
    match readEnvPtr fuel st um v with
    | (st', v', err) => (st', .pointer v', err)

/-! ### `ConfigType` (`configtype.go`) -/

/-- The `ctName` table of `ConfigType.String`. -/
def ctName : List String := ["none", "yaml", "json"]

/-- `ConfigType.String`: a `ConfigType` is a `uint8`, so `int(ct)` is a
natural number; the source resets `ctInt` to `0` when `ctInt < 0 || ctInt >
len(ctName)` and then indexes `ctName[ctInt]`.  `none` models the runtime
panic of an out-of-range index. -/
def configTypeString (ct : Nat) : Option String :=
  let ctInt := if ct < 0 ∨ ct > ctName.length then 0 else ct
  ctName.get? ctInt

/-- `ConfigType.IsValid`: `ct.String() != "none"` (propagating the panic of
`String`). -/
def configTypeIsValid (ct : Nat) : Option Bool :=
  (configTypeString ct).map (fun s => s ≠ "none")

/-! ### Helper lemmas -/

theorem GoFields.get?_set_ne : ∀ (fields : GoFields) (i j : Nat) (g : GoField),
    i ≠ j → GoFields.get? (GoFields.set fields i g) j = GoFields.get? fields j
  | .nil, _, _, _, _ => rfl
  | .cons _ _, 0, 0, _, h => absurd rfl h
  | .cons _ _, 0, _ + 1, _, _ => rfl
  | .cons _ _, _ + 1, 0, _, _ => rfl
  | .cons _ rest, i + 1, j + 1, g, h =>
    GoFields.get?_set_ne rest i j g (by omega)

theorem GoFields.get?_set_self : ∀ (fields : GoFields) (i : Nat) (g f : GoField),
    GoFields.get? fields i = some f →
    GoFields.get? (GoFields.set fields i g) i = some g
  | .nil, i, _, _, h => by simp [GoFields.get?] at h
  | .cons _ _, 0, _, _, _ => rfl
  | .cons _ rest, i + 1, g, f, h => GoFields.get?_set_self rest i g f h

theorem strStarts_append (p rest : List Char) : strStarts p (p ++ rest) = true := by
  induction p with
  | nil => rfl
  | cons c cs ih => simp [strStarts, ih]

theorem splitOnceAux_append (sep : Char) (p rest : List Char) (h : sep ∉ p) :
    splitOnceAux sep (p ++ sep :: rest) = some (p, rest) := by
  induction p with
  | nil => simp [splitOnceAux]
  | cons c cs ih =>
    simp only [List.mem_cons, not_or] at h
    simp [splitOnceAux, Ne.symm h.1, ih h.2]

theorem eqFold_head_ne (c d : Char) (xs ys : List Char)
    (h : asciiLower c ≠ asciiLower d) :
    (List.map asciiLower (c :: xs) == List.map asciiLower (d :: ys)) = false := by
  rw [beq_eq_false_iff_ne]
  intro he
  simp only [List.map_cons, List.cons.injEq] at he
  exact h he.1

theorem applyToken_index (fm : FieldMeta) (p : String) :
    (applyToken fm p).index = fm.index := by
  rw [applyToken]
  split
  · rfl
  · split
    · rfl
    · split
      · split <;> rfl
      · rfl

theorem applyToken_name (fm : FieldMeta) (p : String) :
    (applyToken fm p).name = fm.name := by
  rw [applyToken]
  split
  · rfl
  · split
    · rfl
    · split
      · split <;> rfl
      · rfl

theorem foldl_applyTagPart_index (l : List String) (fm : FieldMeta) :
    (l.foldl applyTagPart fm).index = fm.index := by
  induction l generalizing fm with
  | nil => rfl
  | cons p rest ih => rw [List.foldl_cons, ih, applyTagPart, applyToken_index]

theorem parseFieldMeta_index (fname : String) (idx : Nat) (raw : String)
    (mapT : Option String) : (parseFieldMeta fname idx raw mapT).index = idx := by
  rw [parseFieldMeta.eq_def]
  cases mapT with
  | none => exact foldl_applyTagPart_index _ _
  | some mt =>
    simp only []
    split
    · exact foldl_applyTagPart_index _ _
    · simp only [foldl_applyTagPart_index]

/-! ### Claim theorems -/

/-- C5: the tag parser maps a token beginning with `default=` to a default
value equal to everything after the first `=` verbatim: for every string
`v` (including the empty string and strings containing `=`, e.g.
`default=a=b` yields `a=b`), the token `default= ++ v` sets the default
value to exactly `v`. -/
theorem spec_c5 (fm : FieldMeta) (v : String) :
    applyToken fm ("default=" ++ v) = { fm with defaultVal := some v } := by
  have hdata : ("default=" ++ v).data =
      'd' :: 'e' :: 'f' :: 'a' :: 'u' :: 'l' :: 't' :: '=' :: v.data := rfl
  have hs : "struct".data = ['s', 't', 'r', 'u', 'c', 't'] := rfl
  have hr : "required".data = ['r', 'e', 'q', 'u', 'i', 'r', 'e', 'd'] := rfl
  have h1 : eqFold ("default=" ++ v) "struct" = false := by
    rw [eqFold, hdata, hs]
    exact eqFold_head_ne _ _ _ _ (by decide)
  have h2 : eqFold ("default=" ++ v) "required" = false := by
    rw [eqFold, hdata, hr]
    exact eqFold_head_ne _ _ _ _ (by decide)
  have h3 : strStarts "default=".data ("default=" ++ v).data = true := by
    rw [hdata]
    exact strStarts_append "default=".data v.data
  have h4 : splitOnceAux '=' ("default=" ++ v).data = some ("default".data, v.data) := by
    rw [hdata]
    exact splitOnceAux_append '=' "default".data v.data (by decide)
  rw [applyToken.eq_def, h1, h2]
  simp only [Bool.false_eq_true, if_false, h3, if_true, h4]

/-- C6: metadata construction never errors: `getOrBuildFieldMeta` returns a
nil error for every cache state and every type (with arbitrary tag
contents), and a token that is not `struct`, not `required` and does not
begin with `default=` leaves the metadata untouched (silently ignored). -/
theorem spec_c6 :
    (∀ (cache : Cache) (rt : GoType), ∃ metas cache',
        getOrBuildFieldMeta cache rt = (.ok metas, cache'))
    ∧ (∀ (fm : FieldMeta) (part : String),
        eqFold (goTrim part) "struct" = false →
        eqFold (goTrim part) "required" = false →
        strStarts "default=".data (goTrim part).data = false →
        applyTagPart fm part = fm) := by
  constructor
  · intro cache rt
    unfold getOrBuildFieldMeta
    cases h : lookupCache cache rt <;> exact ⟨_, _, rfl⟩
  · intro fm part h1 h2 h3
    rw [applyTagPart, applyToken.eq_def, h1, h2, h3]
    simp

/-- C6 witness: an unrecognized token (here `bogus`, with surrounding
whitespace) leaves a concrete metadata record unchanged. -/
theorem spec_c6_witness :
    applyTagPart ⟨"Port", 0, "PORT", false, none, false⟩ " bogus " =
      ⟨"Port", 0, "PORT", false, none, false⟩ :=
  spec_c6.2 _ _ (by decide) (by decide) (by decide)

/-- C9: `getOrBuildFieldMeta` is idempotent: after one call the cache holds
the returned list, and a second call with the same type returns the very
same list and leaves the cache unchanged (fast path, no rebuild). -/
theorem spec_c9 (cache : Cache) (rt : GoType) :
    ∃ metas, (getOrBuildFieldMeta cache rt).1 = .ok metas
      ∧ lookupCache (getOrBuildFieldMeta cache rt).2 rt = some metas
      ∧ getOrBuildFieldMeta (getOrBuildFieldMeta cache rt).2 rt =
          (.ok metas, (getOrBuildFieldMeta cache rt).2) := by
  unfold getOrBuildFieldMeta
  cases h : lookupCache cache rt with
  | some m => refine ⟨m, ?_, ?_, ?_⟩ <;> simp [h]
  | none => refine ⟨buildFieldMeta rt, ?_, ?_, ?_⟩ <;> simp [h, lookupCache, buildFieldMeta]

/-- C10: the claim says `ConfigType.String` is total over all `uint8`
values; in fact the bounds guard uses `>` instead of `>=`, so `ct = 3`
(one past `ConfigTypeJSON`) slips through the guard and indexes
`ctName[3]`, one past the end of the three-entry table — a runtime panic
(modelled as `none`).  Every other `uint8` value is handled: `0..2` map to
their names and `4..255` are reset to `none` by the guard.  `IsValid`
calls `String`, so it panics at `3` as well. -/
theorem spec_c10 :
    configTypeString 3 = none
    ∧ configTypeString 0 = some "none"
    ∧ configTypeString 1 = some "yaml"
    ∧ configTypeString 2 = some "json"
    ∧ configTypeString 4 = some "none"
    ∧ configTypeString 255 = some "none"
    ∧ configTypeIsValid 3 = none
    ∧ configTypeIsValid 1 = some true := by
  decide

/-- Successful `setFieldDefault` writes exactly the parsed value at the
field's index. -/
theorem setFieldDefault_ok (fields : GoFields) (fm : FieldMeta) (dv : String)
    (fields' : GoFields) (h : setFieldDefault fields fm dv = .ok fields') :
    ∃ fld w, GoFields.get? fields fm.index = some fld
      ∧ parseDefaultValue fld.value fm.name dv = .ok w
      ∧ fields' = GoFields.set fields fm.index (fld.withValue w) := by
  unfold setFieldDefault at h
  split at h
  · exact absurd h (by simp)
  · rename_i fld hg
    split at h
    · rename_i w hp
      exact ⟨fld, w, hg, hp, by injection h with h'; exact h'.symm⟩
    · exact absurd h (by simp)

/-- The required/default step for field `fm` never changes any other
field. -/
theorem requiredAndDefaultPart_get_ne (st : EngineState) (pfxS : String)
    (fields : GoFields) (fm : FieldMeta) (j : Nat) (hne : fm.index ≠ j) :
    GoFields.get? (requiredAndDefaultPart st pfxS fields fm).2.1 j =
      GoFields.get? fields j := by
  unfold requiredAndDefaultPart
  cases hg : GoFields.get? fields fm.index with
  | none => simp
  | some fld =>
    simp only []
    by_cases h1 : (fm.required && isZeroValue fld.value) = true
    · simp [h1]
    · simp only [h1, if_false]
      by_cases h2 : (isZeroValue fld.value && fm.defaultVal.isSome) = true
      · simp only [h2, if_true]
        cases hd : fm.defaultVal with
        | none => simp
        | some dv =>
          cases hs : setFieldDefault fields fm dv with
          | ok f' =>
            obtain ⟨fld2, w, _, _, hf⟩ := setFieldDefault_ok _ _ _ _ hs
            simp [hs, hf, GoFields.get?_set_ne _ _ _ _ hne]
          | error e => simp [hs]
      · simp [h2]

/-- A required field whose current value is zero makes the `Check` loop
body fail with the missing-required error, leaving the struct (and hence
any pending default) untouched. -/
theorem checkFieldStep_required_zero (fuel : Nat) (st : EngineState)
    (pfxS : String) (fields : GoFields) (fm : FieldMeta) (fld : GoField)
    (hreq : fm.required = true) (hns : fm.isStruct = false)
    (hget : GoFields.get? fields fm.index = some fld)
    (hz : isZeroValue fld.value = true) :
    checkFieldStep fuel st pfxS fields fm =
      (st, fields, some (.missingRequired pfxS fm.mapTag fm.name)) := by
  unfold checkFieldStep
  rw [hget]
  simp only [hns, Bool.false_eq_true, if_false]
  unfold requiredAndDefaultPart
  rw [hget]
  simp [hreq, hz]

/-- A non-`struct`-tagged field whose current value is not zero passes the
loop body unchanged: neither the required gate nor default application
fires. -/
theorem checkFieldStep_nonzero (fuel : Nat) (st : EngineState)
    (pfxS : String) (fields : GoFields) (fm : FieldMeta) (fld : GoField)
    (hns : fm.isStruct = false)
    (hget : GoFields.get? fields fm.index = some fld)
    (hz : isZeroValue fld.value = false) :
    checkFieldStep fuel st pfxS fields fm = (st, fields, none) := by
  unfold checkFieldStep
  rw [hget]
  simp only [hns, Bool.false_eq_true, if_false]
  unfold requiredAndDefaultPart
  rw [hget]
  simp [hz]

/-- A non-required, non-`struct`-tagged field that is zero and carries a
default reduces the loop body to `setFieldDefault`. -/
theorem checkFieldStep_zero_default (fuel : Nat) (st : EngineState)
    (pfxS : String) (fields : GoFields) (fm : FieldMeta) (fld : GoField)
    (dv : String) (hreq : fm.required = false) (hns : fm.isStruct = false)
    (hd : fm.defaultVal = some dv)
    (hget : GoFields.get? fields fm.index = some fld)
    (hz : isZeroValue fld.value = true) :
    checkFieldStep fuel st pfxS fields fm =
      (match setFieldDefault fields fm dv with
       | .ok fields' => (st, fields', none)
       | .error e => (st, fields, some (.defaultErr fm.name e))) := by
  unfold checkFieldStep
  rw [hget]
  simp only [hns, Bool.false_eq_true, if_false]
  unfold requiredAndDefaultPart
  rw [hget, hd]
  simp [hreq, hz]

/-- The `Check` loop body for field `fm` never changes any other field. -/
theorem checkFieldStep_get_ne (fuel : Nat) (st : EngineState) (pfxS : String)
    (fields : GoFields) (fm : FieldMeta) (j : Nat) (hne : fm.index ≠ j) :
    GoFields.get? (checkFieldStep fuel st pfxS fields fm).2.1 j =
      GoFields.get? fields j := by
  unfold checkFieldStep
  cases hg : GoFields.get? fields fm.index with
  | none => simp
  | some fld =>
    simp only []
    by_cases hstr : fm.isStruct = true
    · simp only [hstr, if_true]
      unfold nestedCheckPart
      cases fuel with
      | zero => simp
      | succ n =>
        rcases hcp : checkPtr n st pfxS fld.value with ⟨st', v', e⟩
        cases e with
        | some err =>
          simp only [hcp]
          simp [GoFields.get?_set_ne _ _ _ _ hne]
        | none =>
          simp only [hcp]
          rw [requiredAndDefaultPart_get_ne _ _ _ _ _ hne]
          exact GoFields.get?_set_ne _ _ _ _ hne
    · have hns : fm.isStruct = false := by
        cases h : fm.isStruct
        · rfl
        · exact absurd h hstr
      simp only [hns, Bool.false_eq_true, if_false]
      exact requiredAndDefaultPart_get_ne _ _ _ _ _ hne

/-- C2 (amended): for a required (non-nested-struct-tagged) field, the
`Check` loop body fails with the error naming the namespace prefix, the
external-source key and the field name exactly when the field's current
value is the zero value of its type — where zero means `false` for bool,
`0` for the numeric kinds, the empty string, and NIL for sequences: an
empty but non-nil sequence is not zero, so a required sequence field
holding an empty non-nil sequence PASSES the required check (this is the
one point where the original claim fails; see the counterexample). -/
theorem spec_c2 (fuel : Nat) (st : EngineState) (pfxS : String)
    (fields : GoFields) (fm : FieldMeta) (fld : GoField)
    (hreq : fm.required = true) (hns : fm.isStruct = false)
    (hget : GoFields.get? fields fm.index = some fld) :
    (checkFieldStep fuel st pfxS fields fm =
        (st, fields, some (.missingRequired pfxS fm.mapTag fm.name))
      ↔ isZeroValue fld.value = true)
    ∧ isZeroValue (.sliceV (some [])) = false
    ∧ (∀ o, isZeroValue (.sliceV o) = o.isNone)
    ∧ (∀ b, isZeroValue (.boolV b) = (b == false))
    ∧ (∀ i, isZeroValue (.intV i) = (i == 0))
    ∧ (∀ n, isZeroValue (.uintV n) = (n == 0))
    ∧ (∀ q, isZeroValue (.floatV q) = decide (q = 0))
    ∧ (∀ s, isZeroValue (.stringV s) = (s == "")) := by
  refine ⟨?_, rfl, fun o => rfl, fun b => rfl, fun i => rfl, fun n => rfl,
    fun q => rfl, fun s => rfl⟩
  cases hz : isZeroValue fld.value with
  | true =>
    exact ⟨fun _ => rfl,
      fun _ => checkFieldStep_required_zero fuel st pfxS fields fm fld hreq hns hget hz⟩
  | false =>
    constructor
    · intro hstep
      rw [checkFieldStep_nonzero fuel st pfxS fields fm fld hns hget hz] at hstep
      exact absurd hstep (by simp)
    · intro h
      exact absurd h (by simp [hz])

/-- C2 counterexample: the claim as stated says a required sequence field
holding an empty but non-nil sequence fails `Check`; in fact
`reflect.Value.IsZero` on a slice is `IsNil`, so `Check` succeeds on a
struct whose only field is required and holds the empty non-nil slice. -/
theorem spec_c2_counterexample :
    (check 1 ⟨[], [], []⟩ "AUTOCONFIG"
        (.pointer (.structV (.cons (.mk "Origin" true (some "required")
          (some "ORIGIN") (.sliceV (some []))) .nil)))).2.2 = none := by
  simp [check, checkPtr, checkMetas, checkFieldStep, requiredAndDefaultPart,
    getOrBuildFieldMeta, lookupCache, buildFieldMeta, buildFields,
    parseFieldMeta, applyTagPart, applyToken, goSplit, splitCharAux, goTrim,
    eqFold, asciiLower, goIsSpace, strStarts, splitOnceAux, typeOf,
    typeOfFields, GoFields.get?, isZeroValue, isZeroFields, GoField.value,
    GoField.name, GoField.exported, GoField.configTag, GoField.mapTag,
    Option.isNone]

/-- C2 witness: a required nil-slice field is zero, so the loop body fails
with the error naming prefix, key and field name. -/
theorem spec_c2_witness :
    checkFieldStep 1 ⟨[], [], []⟩ "AUTOCONFIG"
        (.cons (.mk "Origin" true (some "required") (some "ORIGIN")
          (.sliceV none)) .nil)
        ⟨"Origin", 0, "ORIGIN", true, none, false⟩ =
      (⟨[], [], []⟩,
       .cons (.mk "Origin" true (some "required") (some "ORIGIN")
         (.sliceV none)) .nil,
       some (.missingRequired "AUTOCONFIG" "ORIGIN" "Origin")) :=
  (spec_c2 1 ⟨[], [], []⟩ "AUTOCONFIG"
    (.cons (.mk "Origin" true (some "required") (some "ORIGIN") (.sliceV none)) .nil)
    ⟨"Origin", 0, "ORIGIN", true, none, false⟩
    (.mk "Origin" true (some "required") (some "ORIGIN") (.sliceV none))
    rfl rfl rfl).1.mpr rfl

/-- C3: for a field with a default (not `struct`-tagged): if its value is
not zero at `Check` time the loop body leaves everything untouched (a
default never overwrites a present value); if its value is zero and the
loop body succeeds, the field now holds exactly the default literal parsed
per the field's kind, where parsing means `ParseBool`/`ParseInt`/
`ParseUint`/`ParseFloat` for the scalar kinds and verbatim assignment for
strings (the remaining conjuncts pin that correspondence). -/
theorem spec_c3 (fuel : Nat) (st : EngineState) (pfxS : String)
    (fields : GoFields) (fm : FieldMeta) (fld : GoField) (dv : String)
    (hd : fm.defaultVal = some dv) (hns : fm.isStruct = false)
    (hget : GoFields.get? fields fm.index = some fld) :
    (isZeroValue fld.value = false →
      checkFieldStep fuel st pfxS fields fm = (st, fields, none))
    ∧ (∀ st' fields', isZeroValue fld.value = true →
        checkFieldStep fuel st pfxS fields fm = (st', fields', none) →
        st' = st ∧ ∃ w, parseDefaultValue fld.value fm.name dv = .ok w
          ∧ fields' = GoFields.set fields fm.index (fld.withValue w))
    ∧ (∀ s, parseDefaultValue (.stringV s) fm.name dv = .ok (.stringV dv))
    ∧ (∀ b, parseDefaultValue (.boolV b) fm.name dv =
        (match goParseBool dv with
         | some x => .ok (.boolV x)
         | none => .error (.invalidBool dv)))
    ∧ (∀ i, parseDefaultValue (.intV i) fm.name dv =
        (match goParseInt dv with
         | some x => .ok (.intV x)
         | none => .error (.invalidInt dv)))
    ∧ (∀ n, parseDefaultValue (.uintV n) fm.name dv =
        (match goParseUint dv with
         | some x => .ok (.uintV x)
         | none => .error (.invalidUint dv)))
    ∧ (∀ q, parseDefaultValue (.floatV q) fm.name dv =
        (match goParseFloat dv with
         | some x => .ok (.floatV x)
         | none => .error (.invalidFloat dv))) := by
  refine ⟨fun hz => checkFieldStep_nonzero fuel st pfxS fields fm fld hns hget hz,
    ?_, fun s => rfl, fun b => rfl, fun i => rfl, fun n => rfl, fun q => rfl⟩
  intro st' fields' hz hstep
  cases hr : fm.required with
  | true =>
    rw [checkFieldStep_required_zero fuel st pfxS fields fm fld hr hns hget hz]
      at hstep
    exact absurd hstep (by simp)
  | false =>
    rw [checkFieldStep_zero_default fuel st pfxS fields fm fld dv hr hns hd hget hz]
      at hstep
    cases hs : setFieldDefault fields fm dv with
    | ok f2 =>
      rw [hs] at hstep
      obtain ⟨fld2, w, hg2, hp, hf⟩ := setFieldDefault_ok _ _ _ _ hs
      rw [hget] at hg2
      injection hg2 with hg2
      subst hg2
      have h1 : st' = st := by
        injection hstep with h _
        exact h.symm
      have h2 : fields' = f2 := by
        injection hstep with _ h
        injection h with h _
        exact h.symm
      exact ⟨h1, w, hp, by rw [h2, hf]⟩
    | error e =>
      rw [hs] at hstep
      exact absurd hstep (by simp)

/-- C3 witness: a field with a present (non-zero) value is left untouched
by the loop body even though a default is configured. -/
theorem spec_c3_witness :
    checkFieldStep 1 ⟨[], [], []⟩ "AUTOCONFIG"
        (.cons (.mk "Port" true (some "default=8000") (some "PORT")
          (.intV 9000)) .nil)
        ⟨"Port", 0, "PORT", false, some "8000", false⟩ =
      (⟨[], [], []⟩,
       .cons (.mk "Port" true (some "default=8000") (some "PORT")
         (.intV 9000)) .nil,
       none) :=
  (spec_c3 1 ⟨[], [], []⟩ "AUTOCONFIG"
    (.cons (.mk "Port" true (some "default=8000") (some "PORT") (.intV 9000)) .nil)
    ⟨"Port", 0, "PORT", false, some "8000", false⟩
    (.mk "Port" true (some "default=8000") (some "PORT") (.intV 9000))
    "8000" rfl rfl rfl).1 rfl

/-- C4: a zero-valued field whose kind is neither bool, integer, unsigned,
float nor string (a sequence or a nested record) and whose metadata
carries a default makes the loop body fail with the unsupported-kind error
naming the field and its kind, wrapped with the field's name; the field is
left unset. -/
theorem spec_c4 (fuel : Nat) (st : EngineState) (pfxS : String)
    (fields : GoFields) (fm : FieldMeta) (fld : GoField) (dv : String)
    (hd : fm.defaultVal = some dv) (hns : fm.isStruct = false)
    (hreq : fm.required = false)
    (hget : GoFields.get? fields fm.index = some fld)
    (hscalar : isScalarValue fld.value = false)
    (hz : isZeroValue fld.value = true) :
    checkFieldStep fuel st pfxS fields fm =
      (st, fields,
       some (.defaultErr fm.name (.unsupportedKind (kindOf fld.value) fm.name))) := by
  rw [checkFieldStep_zero_default fuel st pfxS fields fm fld dv hreq hns hd hget hz]
  have hp : parseDefaultValue fld.value fm.name dv =
      .error (.unsupportedKind (kindOf fld.value) fm.name) := by
    cases hv : fld.value with
    | boolV b => rw [hv] at hscalar; exact absurd hscalar (by simp [isScalarValue])
    | intV i => rw [hv] at hscalar; exact absurd hscalar (by simp [isScalarValue])
    | uintV n => rw [hv] at hscalar; exact absurd hscalar (by simp [isScalarValue])
    | floatV q => rw [hv] at hscalar; exact absurd hscalar (by simp [isScalarValue])
    | stringV s => rw [hv] at hscalar; exact absurd hscalar (by simp [isScalarValue])
    | sliceV o => rfl
    | structV fs => rfl
  have hs : setFieldDefault fields fm dv =
      .error (.unsupportedKind (kindOf fld.value) fm.name) := by
    unfold setFieldDefault
    rw [hget]
    simp [hp]
  rw [hs]

/-- C4 witness: a nil (zero) slice field with a configured default makes
the loop body fail with the unsupported-kind error, leaving the struct
unchanged. -/
theorem spec_c4_witness :
    checkFieldStep 1 ⟨[], [], []⟩ "AUTOCONFIG"
        (.cons (.mk "Origin" true (some "default=x") (some "ORIGIN")
          (.sliceV none)) .nil)
        ⟨"Origin", 0, "ORIGIN", false, some "x", false⟩ =
      (⟨[], [], []⟩,
       .cons (.mk "Origin" true (some "default=x") (some "ORIGIN")
         (.sliceV none)) .nil,
       some (.defaultErr "Origin" (.unsupportedKind "slice" "Origin"))) :=
  spec_c4 1 ⟨[], [], []⟩ "AUTOCONFIG" _ _
    (.mk "Origin" true (some "default=x") (some "ORIGIN") (.sliceV none))
    "x" rfl rfl rfl rfl rfl rfl

/-- A cache state is well-formed when every entry holds the metadata built
for its key — the only states the engine can produce. -/
def cacheWF (cache : Cache) : Prop :=
  ∀ rt m, lookupCache cache rt = some m → m = buildFieldMeta rt

/-- On a well-formed cache, `getOrBuildFieldMeta` always hands back the
built metadata of the requested type. -/
theorem getOrBuildFieldMeta_wf (cache : Cache) (rt : GoType) (h : cacheWF cache) :
    ∃ cache', getOrBuildFieldMeta cache rt = (.ok (buildFieldMeta rt), cache') := by
  unfold getOrBuildFieldMeta
  cases hl : lookupCache cache rt with
  | some m => exact ⟨cache, by rw [h rt m hl]⟩
  | none => exact ⟨_, rfl⟩

/-- The metadata list built for a struct containing, at index `i`, an
exported field with a `config` tag other than `-` splits around that
field's metadata entry, and every earlier entry has a smaller index. -/
theorem buildFields_split : ∀ (fields : GoFields) (i k : Nat) (fname : String)
    (ct mt : Option String) (v : GoValue) (raw : String),
    GoFields.get? fields i = some (.mk fname true ct mt v) →
    ct = some raw → raw ≠ "-" →
    ∃ pre post, buildFields (typeOfFields fields) k =
        pre ++ parseFieldMeta fname (k + i) raw mt :: post
      ∧ ∀ fm ∈ pre, fm.index < k + i
  | .nil, i, k, fname, ct, mt, v, raw, hget, hct, hraw => by
    simp [GoFields.get?] at hget
  | .cons (.mk n e ct' mt' v') rest, 0, k, fname, ct, mt, v, raw, hget, hct, hraw => by
    simp only [GoFields.get?, Option.some.injEq, GoField.mk.injEq] at hget
    obtain ⟨hn, he, hctx, hmtx, hvx⟩ := hget
    subst hn hctx hmtx hct
    refine ⟨[], buildFields (typeOfFields rest) (k + 1), ?_, by simp⟩
    simp [typeOfFields, buildFields, he, hraw]
  | .cons (.mk n e ct' mt' v') rest, i + 1, k, fname, ct, mt, v, raw, hget, hct, hraw => by
    obtain ⟨pre', post', heq, hlt⟩ :=
      buildFields_split rest i (k + 1) fname ct mt v raw hget hct hraw
    have harith : k + 1 + i = k + (i + 1) := by omega
    rw [harith] at heq hlt
    cases he : e with
    | false =>
      refine ⟨pre', post', ?_, hlt⟩
      simp [typeOfFields, buildFields, he, heq]
    | true =>
      cases hct2 : ct' with
      | none =>
        refine ⟨pre', post', ?_, hlt⟩
        simp [typeOfFields, buildFields, he, hct2, heq]
      | some raw2 =>
        by_cases hr2 : raw2 = "-"
        · refine ⟨pre', post', ?_, hlt⟩
          simp [typeOfFields, buildFields, he, hct2, hr2, heq]
        · refine ⟨parseFieldMeta n k raw2 mt' :: pre', post', ?_, ?_⟩
          · simp [typeOfFields, buildFields, he, hct2, hr2, heq]
          · intro fm hfm
            rcases List.mem_cons.mp hfm with h | h
            · rw [h, parseFieldMeta_index]
              omega
            · exact hlt fm h

/-- Once the `Check` loop is going to reach a required, zero, non-nested
field whose index no earlier metadata entry touches, the whole loop
necessarily returns an error. -/
theorem checkMetas_stuck (pfxS : String) (fmS : FieldMeta) (post : List FieldMeta)
    (hreq : fmS.required = true) (hns : fmS.isStruct = false) :
    ∀ (pre : List FieldMeta) (fuel : Nat) (st : EngineState) (fields : GoFields)
      (fld : GoField),
      (∀ fm' ∈ pre, fm'.index ≠ fmS.index) →
      GoFields.get? fields fmS.index = some fld →
      isZeroValue fld.value = true →
      (checkMetas fuel st pfxS fields (pre ++ fmS :: post)).2.2 ≠ none := by
  intro pre
  induction pre with
  | nil =>
    intro fuel st fields fld hpre hget hz
    rw [List.nil_append]
    have hstep := checkFieldStep_required_zero fuel st pfxS fields fmS fld hreq hns hget hz
    simp [checkMetas, hstep]
  | cons fm pre' ih =>
    intro fuel st fields fld hpre hget hz
    rw [List.cons_append]
    rcases hstep : checkFieldStep fuel st pfxS fields fm with ⟨st', fields', e⟩
    cases e with
    | some err => simp [checkMetas, hstep]
    | none =>
      have hpres : GoFields.get? fields' fmS.index = some fld := by
        have hp := checkFieldStep_get_ne fuel st pfxS fields fm fmS.index
          (hpre fm (List.mem_cons_self fm pre'))
        rw [hstep] at hp
        rw [← hget]
        exact hp
      simp only [checkMetas, hstep]
      exact ih fuel st' fields' fld
        (fun fm' h => hpre fm' (List.mem_cons_of_mem fm h)) hpres hz

/-- C1: for a field whose metadata has both `required` and a default and
whose value is zero at `Check` time, the required gate of step 3b fires
before the default application of step 3c: the loop body returns the
missing-required error and leaves the struct untouched (the default is not
applied); consequently a whole `Check` run over a struct containing such a
field never succeeds. -/
theorem spec_c1 :
    (∀ (fuel : Nat) (st : EngineState) (pfxS : String) (fields : GoFields)
        (fm : FieldMeta) (fld : GoField) (dv : String),
        fm.required = true → fm.defaultVal = some dv → fm.isStruct = false →
        GoFields.get? fields fm.index = some fld → isZeroValue fld.value = true →
        checkFieldStep fuel st pfxS fields fm =
          (st, fields, some (.missingRequired pfxS fm.mapTag fm.name)))
    ∧ (∀ (fuel : Nat) (st : EngineState) (pfxS : String) (fields : GoFields)
        (i : Nat) (fname : String) (mt : Option String) (v : GoValue)
        (raw dv : String),
        cacheWF st.cache →
        GoFields.get? fields i = some (.mk fname true (some raw) mt v) →
        raw ≠ "-" →
        (parseFieldMeta fname i raw mt).required = true →
        (parseFieldMeta fname i raw mt).defaultVal = some dv →
        (parseFieldMeta fname i raw mt).isStruct = false →
        isZeroValue v = true →
        (check fuel st pfxS (.pointer (.structV fields))).2.2 ≠ none) := by
  constructor
  · intro fuel st pfxS fields fm fld dv hreq hd hns hget hz
    exact checkFieldStep_required_zero fuel st pfxS fields fm fld hreq hns hget hz
  · intro fuel st pfxS fields i fname mt v raw dv hwf hget hraw hreq hd hns hz
    obtain ⟨cache', hgb⟩ := getOrBuildFieldMeta_wf st.cache (typeOfFields fields) hwf
    obtain ⟨pre, post, hsplit, hlt⟩ :=
      buildFields_split fields i 0 fname (some raw) mt v raw hget rfl hraw
    rw [Nat.zero_add] at hsplit hlt
    have hstuck := checkMetas_stuck pfxS (parseFieldMeta fname i raw mt) post
      hreq hns pre fuel { st with cache := cache' } fields
      (.mk fname true (some raw) mt v)
      (fun fm' h => by rw [parseFieldMeta_index]; exact Nat.ne_of_lt (hlt fm' h))
      (by rw [parseFieldMeta_index]; exact hget) hz
    rcases hcm : checkMetas fuel { st with cache := cache' } pfxS fields
        (pre ++ parseFieldMeta fname i raw mt :: post) with ⟨st3, f3, e3⟩
    rw [hcm] at hstuck
    have hcp : checkPtr fuel st pfxS (.structV fields) = (st3, .structV f3, e3) := by
      unfold checkPtr
      rw [show typeOf (GoValue.structV fields) = typeOfFields fields from rfl, hgb]
      simp only [buildFieldMeta] at hcm ⊢
      rw [hsplit, hcm]
    simp only [check, hcp]
    exact hstuck

/-- C1 witness: a concrete field tagged both `required` and
`default=8000`, absent (zero) at `Check` time, makes the loop body fail
with the missing-required error (the default is not applied), and the
whole `Check` run over a struct holding it fails. -/
theorem spec_c1_witness :
    (checkFieldStep 1 ⟨[], [], []⟩ "AUTOCONFIG"
        (.cons (.mk "Port" true (some "required,default=8000") (some "PORT")
          (.intV 0)) .nil)
        ⟨"Port", 0, "PORT", true, some "8000", false⟩ =
      (⟨[], [], []⟩,
       .cons (.mk "Port" true (some "required,default=8000") (some "PORT")
         (.intV 0)) .nil,
       some (.missingRequired "AUTOCONFIG" "PORT" "Port")))
    ∧ (check 1 ⟨[], [], []⟩ "AUTOCONFIG"
        (.pointer (.structV (.cons (.mk "Port" true
          (some "required,default=8000") (some "PORT") (.intV 0)) .nil)))).2.2
        ≠ none := by
  constructor
  · exact spec_c1.1 1 ⟨[], [], []⟩ "AUTOCONFIG"
      (.cons (.mk "Port" true (some "required,default=8000") (some "PORT")
        (.intV 0)) .nil)
      ⟨"Port", 0, "PORT", true, some "8000", false⟩
      (.mk "Port" true (some "required,default=8000") (some "PORT") (.intV 0))
      "8000" rfl rfl rfl rfl rfl
  · exact spec_c1.2 1 ⟨[], [], []⟩ "AUTOCONFIG"
      (.cons (.mk "Port" true (some "required,default=8000") (some "PORT")
        (.intV 0)) .nil)
      0 "Port" (some "PORT") (.intV 0) "required,default=8000" "8000"
      (fun rt m h => by simp [lookupCache] at h)
      rfl (by decide) (by decide) (by decide) (by decide) rfl

/-- C7: an argument that is not a non-nil pointer to a struct — a plain
value of any kind, a nil pointer, or a pointer to a non-struct — makes
both `Check` and `ReadEnv` return the shape error carrying the offending
kind string (for a nil pointer the reported kind is `ptr`), with the
engine state (metadata cache, key registry) and the argument returned
exactly as they came in: no mutation. -/
theorem spec_c7 (fuel : Nat) (st : EngineState) (pfxS : String) (um : Unmarshal) :
    (∀ v, check fuel st pfxS (.value v) =
        (st, .value v, some (.checkNotPointer (kindOf v))))
    ∧ check fuel st pfxS .nilPointer =
        (st, .nilPointer, some (.checkNotPointer "ptr"))
    ∧ (∀ v, isStructValue v = false →
        check fuel st pfxS (.pointer v) =
          (st, .pointer v, some (.checkNotStruct (kindOf v))))
    ∧ (∀ v, readEnv fuel st um (.value v) =
        (st, .value v, some (.readEnvNotPointer (kindOf v))))
    ∧ readEnv fuel st um .nilPointer =
        (st, .nilPointer, some (.readEnvNotPointer "ptr"))
    ∧ (∀ v, isStructValue v = false →
        readEnv fuel st um (.pointer v) =
          (st, .pointer v, some (.readEnvNotStruct (kindOf v)))) := by
  refine ⟨fun v => rfl, rfl, ?_, fun v => rfl, rfl, ?_⟩
  · intro v hv
    cases v
    case structV fs => simp [isStructValue] at hv
    all_goals simp [check, checkPtr]
  · intro v hv
    cases v
    case structV fs => simp [isStructValue] at hv
    all_goals simp [readEnv, readEnvPtr]

/-- C7 witness: concrete bad-shape arguments (an `int` value, a nil
pointer, a pointer to an `int`) are rejected by both operations with the
kind-carrying errors, state and argument unchanged. -/
theorem spec_c7_witness :
    check 1 ⟨[], [], []⟩ "AUTOCONFIG" (.value (.intV 7)) =
      (⟨[], [], []⟩, .value (.intV 7), some (.checkNotPointer "int"))
    ∧ check 1 ⟨[], [], []⟩ "AUTOCONFIG" .nilPointer =
      (⟨[], [], []⟩, .nilPointer, some (.checkNotPointer "ptr"))
    ∧ check 1 ⟨[], [], []⟩ "AUTOCONFIG" (.pointer (.stringV "x")) =
      (⟨[], [], []⟩, .pointer (.stringV "x"), some (.checkNotStruct "string"))
    ∧ readEnv 1 ⟨[], [], []⟩ (fun _ v => .ok v) (.value (.intV 7)) =
      (⟨[], [], []⟩, .value (.intV 7), some (.readEnvNotPointer "int"))
    ∧ readEnv 1 ⟨[], [], []⟩ (fun _ v => .ok v) .nilPointer =
      (⟨[], [], []⟩, .nilPointer, some (.readEnvNotPointer "ptr"))
    ∧ readEnv 1 ⟨[], [], []⟩ (fun _ v => .ok v) (.pointer (.stringV "x")) =
      (⟨[], [], []⟩, .pointer (.stringV "x"), some (.readEnvNotStruct "string")) :=
  ⟨(spec_c7 1 ⟨[], [], []⟩ "AUTOCONFIG" (fun _ v => .ok v)).1 (.intV 7),
   (spec_c7 1 ⟨[], [], []⟩ "AUTOCONFIG" (fun _ v => .ok v)).2.1,
   (spec_c7 1 ⟨[], [], []⟩ "AUTOCONFIG" (fun _ v => .ok v)).2.2.1 (.stringV "x") rfl,
   (spec_c7 1 ⟨[], [], []⟩ "AUTOCONFIG" (fun _ v => .ok v)).2.2.2.1 (.intV 7),
   (spec_c7 1 ⟨[], [], []⟩ "AUTOCONFIG" (fun _ v => .ok v)).2.2.2.2.1,
   (spec_c7 1 ⟨[], [], []⟩ "AUTOCONFIG" (fun _ v => .ok v)).2.2.2.2.2 (.stringV "x") rfl⟩

/-- C8: a `struct`-tagged field is recursed into first, before the
current field's own required/default processing: for `Check`, a nested
error `e` makes the loop body stop with `e` wrapped with the nested
field's name (the nested call's partial writes staying visible in the
parent struct), and a nested success hands the updated struct to the
required/default step; for `ReadEnv`, a field whose whole `config` tag
case-insensitively equals `struct` is recursed into before its key
binding, a nested error coming back wrapped with the field's name. -/
theorem spec_c8 (fuel : Nat) (st : EngineState) (pfxS : String) (um : Unmarshal) :
    (∀ (st' : EngineState) (fields : GoFields) (fm : FieldMeta) (fld : GoField)
        (v' : GoValue) (e : EngineError),
        fm.isStruct = true →
        GoFields.get? fields fm.index = some fld →
        checkPtr fuel st pfxS fld.value = (st', v', some e) →
        checkFieldStep (fuel + 1) st pfxS fields fm =
          (st', GoFields.set fields fm.index (fld.withValue v'),
           some (.nestedCheck fm.name e)))
    ∧ (∀ (st' : EngineState) (fields : GoFields) (fm : FieldMeta)
        (fld : GoField) (v' : GoValue),
        fm.isStruct = true →
        GoFields.get? fields fm.index = some fld →
        checkPtr fuel st pfxS fld.value = (st', v', none) →
        checkFieldStep (fuel + 1) st pfxS fields fm =
          requiredAndDefaultPart st' pfxS
            (GoFields.set fields fm.index (fld.withValue v')) fm)
    ∧ (∀ (st' : EngineState) (n : String) (mt : Option String) (v v' : GoValue)
        (rest : GoFields) (e : EngineError) (raw : String),
        eqFold raw "struct" = true →
        readEnvPtr fuel st um v = (st', v', some e) →
        readEnvFields (fuel + 1) st um
            (.cons (.mk n true (some raw) mt v) rest) =
          (st', .cons (.mk n true (some raw) mt v') rest,
           some (.nestedReadEnv n e))) := by
  refine ⟨?_, ?_, ?_⟩
  · intro st' fields fm fld v' e hstr hget hcp
    unfold checkFieldStep
    rw [hget]
    simp only [hstr, if_true]
    unfold nestedCheckPart
    simp only [hcp]
  · intro st' fields fm fld v' hstr hget hcp
    unfold checkFieldStep
    rw [hget]
    simp only [hstr, if_true]
    unfold nestedCheckPart
    simp only [hcp]
  · intro st' n mt v v' rest e raw hfold hre
    have hrr : readEnvRecurse (fuel + 1) st um (.mk n true (some raw) mt v) =
        (st', v', some (.nestedReadEnv n e)) := by
      unfold readEnvRecurse
      simp only [GoField.name, GoField.value, hre]
    have hnp : readEnvNestedPart (fuel + 1) st um (.mk n true (some raw) mt v) =
        (st', v', some (.nestedReadEnv n e)) := by
      unfold readEnvNestedPart
      simp only [GoField.configTag, hfold, if_true, hrr]
    unfold readEnvFields
    simp only [GoField.exported, GoField.withValue, if_true, hnp]

/-- C8 witness: a field tagged `struct` but of kind `int` — the nested
call's shape error comes back wrapped with the field's name, from both
the `Check` loop body and the `ReadEnv` loop. -/
theorem spec_c8_witness :
    (checkFieldStep 1 ⟨[], [], []⟩ "AUTOCONFIG"
        (.cons (.mk "DB" true (some "struct") none (.intV 5)) .nil)
        ⟨"DB", 0, "", false, none, true⟩ =
      (⟨[], [], []⟩,
       .cons (.mk "DB" true (some "struct") none (.intV 5)) .nil,
       some (.nestedCheck "DB" (.checkNotStruct "int"))))
    ∧ (readEnvFields 1 ⟨[], [], []⟩ (fun _ v => .ok v)
        (.cons (.mk "DB" true (some "struct") none (.intV 5)) .nil) =
      (⟨[], [], []⟩,
       .cons (.mk "DB" true (some "struct") none (.intV 5)) .nil,
       some (.nestedReadEnv "DB" (.readEnvNotStruct "int")))) := by
  constructor
  · exact (spec_c8 0 ⟨[], [], []⟩ "AUTOCONFIG" (fun _ v => .ok v)).1
      ⟨[], [], []⟩
      (.cons (.mk "DB" true (some "struct") none (.intV 5)) .nil)
      ⟨"DB", 0, "", false, none, true⟩
      (.mk "DB" true (some "struct") none (.intV 5))
      (.intV 5) (.checkNotStruct "int") rfl rfl (by unfold checkPtr; rfl)
  · exact (spec_c8 0 ⟨[], [], []⟩ "AUTOCONFIG" (fun _ v => .ok v)).2.2
      ⟨[], [], []⟩ "DB" none (.intV 5) (.intV 5)
      .nil (.readEnvNotStruct "int") "struct" rfl
      (by unfold readEnvPtr; rfl)
